import Mathlib

/- Verification of the decision core of the target-tracking platform:
the fusion engine (src/fusion/simple_fusion.py), the command gate
(src/control/control_gate.py), the sensor-health monitor and finite-state
controller (apps/control/fsm_runner.py), and the offline batch fusion pass
(apps/fusion/fuse_replay.py).  Times, bearings and confidences are modelled
as rationals; the mutable singletons are modelled as explicit state records
threaded through each operation, with the clock passed in as `now`. -/

set_option maxHeartbeats 1000000

namespace Fly

/-- A JSON-ish dictionary with integer values, used for the `time` and `roi`
fields of observation records. -/
abbrev Dict := List (String × Int)

/-- Observation dataclass from src/fusion/simple_fusion.py. -/
structure Observation where
  time : Dict
  source : String
  bearing_deg : Option ℚ
  roi : Option Dict
  confidence : Option ℚ
  status : String
  extras : Option (List String) := none
deriving Repr, DecidableEq

/-- Weight helper from simple_fusion.py: an absent confidence counts 0.5,
a present one is clamped to [0.05, 1.0], written as the if-chain equivalent
of `max(0.05, min(1.0, conf))`. -/
def _weight (conf : Option ℚ) : ℚ :=
  match conf with
  | none => 1/2
  | some c => if 1 < c then 1 else if c < 1/20 then 1/20 else c

/-- Python's built-in `max` of two rationals. -/
def qmax (a b : ℚ) : ℚ := if a < b then b else a

/-- Python's built-in `round` on an exact rational value: nearest integer,
ties going to the even neighbour. -/
def pyRound (x : ℚ) : ℤ :=
  let f := Rat.floor x
  if x - f = 1/2 then (if f % 2 = 0 then f else f + 1)
  else Rat.floor (x + 1/2)

/-- Python `round(x, 2)`, as applied to the fused bearing. -/
def round2 (x : ℚ) : ℚ := (pyRound (x * 100) : ℚ) / 100

/-- Python `round(x, 3)`, as applied to the fused confidence. -/
def round3 (x : ℚ) : ℚ := (pyRound (x * 1000) : ℚ) / 1000

/-- The candidate collection loop of `fuse3`: the inputs that are present and
carry a bearing, tagged with their source name, in the fixed order
vision, thermal, audio. -/
def candidates3 (vision thermal audio : Option Observation) :
    List (String × Observation) :=
  [("vision", vision), ("thermal", thermal), ("audio", audio)].filterMap fun p =>
    match p.2 with
    | some obs => if obs.bearing_deg.isSome then some (p.1, obs) else none
    | none => none

/-- Three-way fusion `fuse3` from simple_fusion.py.  The Python `max(...)`
over the (nonempty) weight list is modelled as a `foldl qmax 0`; the initial
0 is below every weight (each is at least 0.05).  The time dict is taken
from the first candidate in priority order whose time dict is non-empty
(Python's `if time_obj:` truthiness test), the roi from the first
vision/thermal candidate carrying one. -/
def fuse3 (vision thermal audio : Option Observation) : Option Observation :=
  let candidates := candidates3 vision thermal audio
  if candidates.isEmpty then none
  else
    let total_w := (candidates.map fun c => _weight c.2.confidence).sum
    if total_w ≤ 0 then none
    else
      let bearing :=
        (candidates.map fun c => c.2.bearing_deg.getD 0 * _weight c.2.confidence).sum / total_w
      let max_conf := (candidates.map fun c => _weight c.2.confidence).foldl qmax 0
      let sources_used := candidates.map Prod.fst
      let time_obj :=
        (((candidates.map fun c => c.2.time).filter fun d => ¬ d.isEmpty).head?).getD []
      let roi :=
        ((((candidates.map fun c => (c.1, c.2.roi)).filter fun d =>
            (d.1 = "vision" ∨ d.1 = "thermal") ∧ d.2.isSome).head?).map Prod.snd).getD none
      let status := if 2 ≤ candidates.length then "OK" else "DEGRADED"
      some { time := time_obj, source := "fusion", bearing_deg := some (round2 bearing),
             roi := roi, confidence := some (round3 max_conf), status := status,
             extras := some sources_used }

/-- Legacy two-way fusion: vision + audio through the three-way path. -/
def fuse (vision audio : Option Observation) : Option Observation :=
  fuse3 vision none audio

/-- Gate configuration dataclass from src/control/control_gate.py. -/
structure GateConfig where
  max_rate_hz : ℚ := 5
  command_ttl_sec : ℚ := 1
  allow_types : List String := ["SET_YAW", "SET_MODE", "STOP"]
deriving Repr, DecidableEq

/-- Mutable state of the CommandGate class, made explicit. -/
structure CommandGate where
  config : GateConfig
  last_send : ℚ := 0
  last_cmd : ℚ := 0
  link_status : String := "OK"
deriving Repr, DecidableEq

namespace CommandGate

def update_link_status (status : String) (g : CommandGate) : CommandGate :=
  { g with link_status := status }

/-- CommandGate.can_send: allow-listed type, link exactly "OK", and the
minimum inter-command interval elapsed since the last send. -/
def can_send (g : CommandGate) (now : ℚ) (cmd_type : String) : Bool :=
  if cmd_type ∉ g.config.allow_types then false
  else if g.link_status ≠ "OK" then false
  else
    let min_interval := if 0 < g.config.max_rate_hz then 1 / g.config.max_rate_hz else 0
    if now - g.last_send < min_interval then false else true

/-- CommandGate.mark_sent records the send instant for the rate limiter and
the TTL timer. -/
def mark_sent (g : CommandGate) (now : ℚ) : CommandGate :=
  { g with last_send := now, last_cmd := now }

/-- CommandGate.expired: no command sent within the configured TTL. -/
def expired (g : CommandGate) (now : ℚ) : Bool :=
  if g.config.command_ttl_sec ≤ 0 then false
  else decide (now - g.last_cmd > g.config.command_ttl_sec)

end CommandGate

/-- Mutable state of the SensorHealth class from apps/control/fsm_runner.py.
The timeout is the constructor argument; the two timestamps start at 0. -/
structure SensorHealth where
  timeout : ℚ
  lastVision : ℚ := 0
  lastAudio : ℚ := 0
deriving Repr, DecidableEq

namespace SensorHealth

def update_vision (h : SensorHealth) (now : ℚ) : SensorHealth :=
  { h with lastVision := now }

def update_audio (h : SensorHealth) (now : ℚ) : SensorHealth :=
  { h with lastAudio := now }

def vision_ok (h : SensorHealth) (now : ℚ) : Bool :=
  decide (now - h.lastVision < h.timeout)

def audio_ok (h : SensorHealth) (now : ℚ) : Bool :=
  decide (now - h.lastAudio < h.timeout)

def status (h : SensorHealth) (now : ℚ) : String :=
  if h.vision_ok now ∧ h.audio_ok now then "ALL_OK"
  else if h.vision_ok now ∧ ¬ h.audio_ok now then "AUDIO_FAIL"
  else if ¬ h.vision_ok now ∧ h.audio_ok now then "VISION_FAIL"
  else "BOTH_FAIL"

end SensorHealth

/-- A fused-observation record as consumed by FSM.step (a parsed JSON dict in
the source); only the fields the step reads are modelled.  `sources` is the
`extras.sources` list (empty when extras is absent or carries no list). -/
structure FsmObs where
  status : String
  source : String
  sources : List String := []
  bearing_deg : Option ℚ := none
  confidence : Option ℚ := none
deriving Repr, DecidableEq

/-- FSM configuration fields read from the config dict in FSM.__init__,
with the source's defaults. -/
structure FSMConfig where
  lock_conf : ℚ := 3/5
  audio_trigger_conf : ℚ := 3/10
  lost_timeout : ℚ := 3
  yaw_rate : ℚ := 30
  event_cooldown : ℚ := 1
  vision_fail_action : String := "audio_only"
  audio_fail_action : String := "vision_only"
  both_fail_action : String := "return"
  max_degraded_sec : ℚ := 30
  auto_recover : Bool := true
deriving Repr, DecidableEq

/-- One line of the append-only events log (type and note fields). -/
structure EventRecord where
  etype : String
  note : String
deriving Repr, DecidableEq

/-- One line of the append-only commands log: type, params, allowed flag
and note. -/
structure CmdRecord where
  ctype : String
  yaw_deg : Option ℚ := none
  yaw_rate : Option ℚ := none
  mode : Option String := none
  allowed : Bool
  note : String
deriving Repr, DecidableEq

/-- Mutable state of the FSM class, with its owned SensorHealth and the
shared CommandGate, plus the two append-only logs it writes.  `control`
records whether a vehicle command sink is attached (`self._control`). -/
structure FSMState where
  cfg : FSMConfig
  gate : CommandGate
  control : Bool
  state : String
  prev_state : String
  last_seen : ℚ
  degraded_since : Option ℚ
  lastEvent : String → ℚ
  sensor : SensorHealth
  active_source : String
  events : List EventRecord
  commands : List CmdRecord

namespace FSM

def IDLE : String := "IDLE"
def SEARCH : String := "SEARCH"
def SCAN : String := "SCAN"
def LOCKED : String := "LOCKED"
def TRACK : String := "TRACK"
def LOST : String := "LOST"
def DEGRADED : String := "DEGRADED"
def RETURN : String := "RETURN"

/-- Python truthiness of the optional degrade-action string: None and the
empty string are falsy. -/
def truthyStr (a : Option String) : Prop :=
  match a with
  | none => False
  | some v => v ≠ ""

instance : DecidablePred truthyStr := fun a =>
  match a with
  | none => isFalse fun h => h
  | some v => inferInstanceAs (Decidable (v ≠ ""))

/-- Python truthiness of the optional `degraded_since` float: None and 0.0
are falsy. -/
def truthyQ (a : Option ℚ) : Prop :=
  match a with
  | none => False
  | some v => v ≠ 0

instance : DecidablePred truthyQ := fun a =>
  match a with
  | none => isFalse fun h => h
  | some v => inferInstanceAs (Decidable (v ≠ 0))

/-- FSM._emit_event with its per-type cooldown. -/
def emit_event (now : ℚ) (etype note : String) (s : FSMState) : FSMState :=
  if 0 < s.cfg.event_cooldown ∧ now - s.lastEvent etype < s.cfg.event_cooldown then s
  else
    { s with events := s.events ++ [⟨etype, note⟩],
             lastEvent := fun t => if t = etype then now else s.lastEvent t }

/-- FSM._log_command: append one record to the commands log. -/
def log_command (rec : CmdRecord) (s : FSMState) : FSMState :=
  { s with commands := s.commands ++ [rec] }

/-- FSM._transition: change state and emit a MODE_CHANGED event when the
target state differs. -/
def transition (now : ℚ) (new_state reason : String) (s : FSMState) : FSMState :=
  if new_state ≠ s.state then
    emit_event now "MODE_CHANGED" (s.state ++ " -> " ++ new_state ++ ": " ++ reason)
      { s with prev_state := s.state, state := new_state }
  else s

/-- FSM._send_yaw with a sink that succeeds: log the decision, then on an
allowed attempt dispatch and mark the gate. -/
def _send_yaw (now bearing : ℚ) (s : FSMState) : FSMState :=
  let allowed := s.gate.can_send now "SET_YAW"
  let s := log_command ⟨"SET_YAW", some bearing, some s.cfg.yaw_rate, none, allowed, "fsm"⟩ s
  if allowed then { s with gate := s.gate.mark_sent now } else s

/-- FSM._send_yaw against a sink whose dispatch may raise: `.error` is the
exception propagating out of the method, carrying the state at the raise
point (the decision was already logged, the gate not yet marked). -/
def _send_yawE (sinkOk : Bool) (now bearing : ℚ) (s : FSMState) :
    Except FSMState FSMState :=
  let allowed := s.gate.can_send now "SET_YAW"
  let s := log_command ⟨"SET_YAW", some bearing, some s.cfg.yaw_rate, none, allowed, "fsm"⟩ s
  if allowed then
    if s.control ∧ ¬ sinkOk then Except.error s
    else Except.ok { s with gate := s.gate.mark_sent now }
  else Except.ok s

/-- Projects the state a send attempt left behind, whether it returned or
raised. -/
def sendOutcome (e : Except FSMState FSMState) : FSMState :=
  match e with
  | Except.ok s => s
  | Except.error s => s

/-- True when the send attempt returned without raising. -/
def sendOk (e : Except FSMState FSMState) : Bool :=
  match e with
  | Except.ok _ => true
  | Except.error _ => false

/-- FSM._send_return: log the SET_MODE RTL decision and, when allowed,
dispatch and mark the gate. -/
def _send_return (now : ℚ) (s : FSMState) : FSMState :=
  let allowed := s.gate.can_send now "SET_MODE"
  let s := log_command ⟨"SET_MODE", none, none, some "RTL", allowed, "fsm-return"⟩ s
  if allowed then { s with gate := s.gate.mark_sent now } else s

/-- FSM._check_degradation: map the health status to the configured action. -/
def _check_degradation (now : ℚ) (s : FSMState) : Option String :=
  let status := s.sensor.status now
  if status = "ALL_OK" then none
  else if status = "VISION_FAIL" then some s.cfg.vision_fail_action
  else if status = "AUDIO_FAIL" then some s.cfg.audio_fail_action
  else if status = "BOTH_FAIL" then some s.cfg.both_fail_action
  else none

/-- The health-update prologue of FSM.step: only observations with status
"OK" touch the timestamps; a vision/audio source or contributor touches its
own sensor, a fusion/fused source touches both. -/
def update_health (now : ℚ) (obs : Option FsmObs) (s : FSMState) : FSMState :=
  match obs with
  | some o =>
    if o.status = "OK" then
      let s := if o.source = "vision" ∨ "vision" ∈ o.sources then
                 { s with sensor := s.sensor.update_vision now } else s
      let s := if o.source = "audio" ∨ "audio" ∈ o.sources then
                 { s with sensor := s.sensor.update_audio now } else s
      if o.source = "fusion" ∨ o.source = "fused" then
        { s with sensor := (s.sensor.update_vision now).update_audio now }
      else s
    else s
  | none => s

/-- The IDLE to SEARCH and SEARCH to SCAN advances at the top of the
valid-observation branch of FSM.step. -/
def mv_advance (now : ℚ) (s : FSMState) : FSMState :=
  let s := if s.state = IDLE then transition now SEARCH "observation_received" s else s
  if s.state = SEARCH then transition now SCAN "target_detected" s else s

/-- The yaw trigger decision of FSM.step under the active source filter. -/
def should_yaw (o : FsmObs) (s : FSMState) : Prop :=
  if s.active_source = "audio_only" then
    "audio" ∈ o.sources ∧ s.cfg.audio_trigger_conf ≤ o.confidence.getD 0
  else if s.active_source = "vision_only" then "vision" ∈ o.sources
  else if "audio" ∈ o.sources ∧ "vision" ∉ o.sources then
    s.cfg.audio_trigger_conf ≤ o.confidence.getD 0
  else if "vision" ∈ o.sources then True
  else False

instance (o : FsmObs) (s : FSMState) : Decidable (should_yaw o s) := by
  unfold should_yaw
  infer_instance

/-- The SCAN/LOCKED/TRACK/DEGRADED block of the valid-observation branch:
optionally send a yaw command, then evaluate SCAN to LOCKED and LOCKED to
TRACK in sequence. -/
def mv_engage (now : ℚ) (o : FsmObs) (s : FSMState) : FSMState :=
  let s := if should_yaw o s then _send_yaw now (o.bearing_deg.getD 0) s else s
  let s := if s.state = SCAN ∧ "vision" ∈ o.sources ∧ s.cfg.lock_conf ≤ o.confidence.getD 0
           then transition now LOCKED "vision_confirmed" s else s
  if s.state = LOCKED ∧ s.cfg.lock_conf ≤ o.confidence.getD 0 then
    transition now TRACK "continuous_tracking" s
  else s

/-- The valid-observation branch of FSM.step: record last_seen, advance
IDLE/SEARCH, then run the engage block when in SCAN/LOCKED/TRACK/DEGRADED. -/
def main_valid (now : ℚ) (o : FsmObs) (s : FSMState) : FSMState :=
  let s := mv_advance now { s with last_seen := now }
  if s.state = SCAN ∨ s.state = LOCKED ∨ s.state = TRACK ∨ s.state = DEGRADED then
    mv_engage now o s
  else s

/-- The no-valid-observation branch of FSM.step: fall to LOST after the lost
timeout, and from LOST log a stop when the gate TTL expired, then resume
SEARCH unconditionally. -/
def no_valid (now : ℚ) (s : FSMState) : FSMState :=
  let s :=
    if (s.state = SCAN ∨ s.state = LOCKED ∨ s.state = TRACK) ∧
        s.cfg.lost_timeout < now - s.last_seen then
      transition now LOST "observation_timeout" s
    else s
  if s.state = LOST then
    let s :=
      if s.gate.expired now then
        let allowed := s.gate.can_send now "STOP"
        let s := log_command ⟨"STOP", none, none, none, allowed, "fsm-lost"⟩ s
        if allowed ∧ s.control then { s with gate := s.gate.mark_sent now } else s
      else s
    transition now SEARCH "resume_search" s
  else s

/-- The tail of FSM.step after the degradation checks: auto-recovery followed
by the primary state-machine logic. -/
def step_rest (now : ℚ) (obs : Option FsmObs) (s : FSMState) : FSMState :=
  let s :=
    if s.state = DEGRADED ∧ s.cfg.auto_recover ∧ s.sensor.status now = "ALL_OK" then
      { transition now SEARCH "sensors_recovered" s with
          active_source := "fused", degraded_since := none }
    else s
  match obs with
  | some o =>
    if o.status = "OK" ∧ o.bearing_deg.isSome then main_valid now o s
    else no_valid now s
  | none => no_valid now s

/-- FSM.step.  The Python early `return`s after the two _send_return calls
are encoded by nesting the remainder of the step in the else branches. -/
def step (now : ℚ) (obs : Option FsmObs) (s : FSMState) : FSMState :=
  let s := update_health now obs s
  let dact := _check_degradation now s
  if truthyStr dact ∧ s.state ≠ DEGRADED ∧ s.state ≠ RETURN ∧ dact = some "return" then
    _send_return now (transition now RETURN "both_sensors_fail" s)
  else
    let s :=
      if truthyStr dact ∧ s.state ≠ DEGRADED ∧ s.state ≠ RETURN then
        { transition now DEGRADED ("sensor_fail:" ++ dact.getD "") s with
            degraded_since := some now, active_source := dact.getD "" }
      else s
    if truthyStr dact ∧ s.state = DEGRADED ∧ truthyQ s.degraded_since ∧
        s.cfg.max_degraded_sec < now - (s.degraded_since.getD 0) then
      _send_return now (transition now RETURN "degraded_timeout" s)
    else
      step_rest now obs s

/-- The cold-start FSM state built in FSM.__init__ and main(): IDLE, fresh
logs, sensor timestamps at 0, the SensorHealth timeout tied to lost_timeout. -/
def init (cfg : FSMConfig) (gate : CommandGate) (control : Bool) (t0 : ℚ) : FSMState :=
  { cfg := cfg, gate := gate, control := control, state := IDLE, prev_state := IDLE,
    last_seen := t0, degraded_since := none, lastEvent := fun _ => 0,
    sensor := { timeout := cfg.lost_timeout }, active_source := "fused",
    events := [], commands := [] }

/-- A run of the control loop: fold the step over a time-ordered list of
(clock, observation) inputs. -/
def run (s : FSMState) (inputs : List (ℚ × Option FsmObs)) : FSMState :=
  inputs.foldl (fun s p => step p.1 p.2 s) s

end FSM

/-- Number of records of a given command type in a commands log. -/
def countCmd (t : String) (l : List CmdRecord) : ℕ :=
  l.countP fun c => c.ctype == t

/-- get_mono_ms from apps/fusion/fuse_replay.py, applied to a time dict:
the "mono_ms" key, else "t_mono_ms", else 0. -/
def get_mono_ms (t : Dict) : ℤ :=
  match t.lookup "mono_ms" with
  | some v => v
  | none => (t.lookup "t_mono_ms").getD 0

/-- One iteration of the offline batch fusion loop in fuse_replay.main:
update the latest-per-source map with the incoming record; if both a vision
and an audio candidate are now retained and their monotonic timestamps differ
by more than the staleness window, emit nothing; otherwise emit the fused
record (if any). -/
def replay_step (window_ms : ℤ) (latest : String → Option Observation)
    (record : Observation) : (String → Option Observation) × Option Observation :=
  let latest' := fun k => if k = record.source then some record else latest k
  let vision := latest' "vision"
  let audio := latest' "audio"
  let skip : Bool :=
    match vision, audio with
    | some v, some a => decide (window_ms < |get_mono_ms v.time - get_mono_ms a.time|)
    | _, _ => false
  if skip then (latest', none) else (latest', fuse vision audio)

/-- Weight list of a candidate list, as computed inside fuse3. -/
def candWeights (cs : List (String × Observation)) : List ℚ :=
  cs.map fun c => _weight c.2.confidence

/-- Total weight of a candidate list, the divisor in fuse3. -/
def candTotalW (cs : List (String × Observation)) : ℚ :=
  (candWeights cs).sum

/-- The confidence-weighted arithmetic mean of the candidate bearings. -/
def candWeightedMean (cs : List (String × Observation)) : ℚ :=
  (cs.map fun c => c.2.bearing_deg.getD 0 * _weight c.2.confidence).sum / candTotalW cs

/-- The maximum candidate weight, as fuse3 computes it. -/
def candMaxW (cs : List (String × Observation)) : ℚ :=
  (candWeights cs).foldl qmax 0

/-- Whether an optional observation carries a bearing. -/
def hasBearing (o : Option Observation) : Bool :=
  match o with
  | some x => x.bearing_deg.isSome
  | none => false

/-- The contributor names fuse3 reports, determined purely by bearing
presence in the fixed vision, thermal, audio order. -/
def candNames (v t a : Option Observation) : List String :=
  (if hasBearing v then ["vision"] else []) ++
  (if hasBearing t then ["thermal"] else []) ++
  (if hasBearing a then ["audio"] else [])

/-- Replace the status field of an observation, leaving the rest intact. -/
def set_status (st : String) (o : Observation) : Observation :=
  { o with status := st }

section FusionLemmas

lemma _weight_ge (c : Option ℚ) : (1:ℚ)/20 ≤ _weight c := by
  cases c with
  | none => norm_num [_weight]
  | some v =>
    simp only [_weight]
    split_ifs <;> linarith

lemma sum_weights_nonneg (l : List (String × Observation)) :
    0 ≤ (l.map fun c => _weight c.2.confidence).sum := by
  apply List.sum_nonneg
  intro x hx
  obtain ⟨c, _, rfl⟩ := List.mem_map.mp hx
  linarith [_weight_ge c.2.confidence]

lemma sum_weights_pos (l : List (String × Observation)) (h : l ≠ []) :
    0 < (l.map fun c => _weight c.2.confidence).sum := by
  cases l with
  | nil => exact absurd rfl h
  | cons x xs =>
    rw [List.map_cons, List.sum_cons]
    have h1 := _weight_ge x.2.confidence
    have h2 := sum_weights_nonneg xs
    linarith

lemma le_foldl_qmax (l : List ℚ) : ∀ a : ℚ, a ≤ l.foldl qmax a := by
  induction l with
  | nil => intro a; simp
  | cons x xs ih =>
    intro a
    rw [List.foldl_cons]
    refine le_trans ?_ (ih (qmax a x))
    unfold qmax
    split_ifs with h
    · linarith
    · linarith

lemma mem_le_foldl_qmax (l : List ℚ) : ∀ (a x : ℚ), x ∈ l → x ≤ l.foldl qmax a := by
  induction l with
  | nil => intro a x hx; cases hx
  | cons y ys ih =>
    intro a x hx
    rw [List.foldl_cons]
    rcases List.mem_cons.mp hx with rfl | hmem
    · refine le_trans ?_ (le_foldl_qmax ys (qmax a x))
      unfold qmax
      split_ifs with h
      · linarith
      · linarith
    · exact ih _ _ hmem

lemma foldl_qmax_mem (l : List ℚ) : ∀ a : ℚ, l.foldl qmax a = a ∨ l.foldl qmax a ∈ l := by
  induction l with
  | nil => intro a; left; rfl
  | cons y ys ih =>
    intro a
    rw [List.foldl_cons]
    rcases ih (qmax a y) with h | h
    · rw [h]
      unfold qmax
      split_ifs with hc
      · right; exact List.mem_cons_self _ _
      · left; rfl
    · right; exact List.mem_cons_of_mem _ h

lemma weighted_sum_le (l : List (String × Observation)) (hi : ℚ)
    (h : ∀ c ∈ l, c.2.bearing_deg.getD 0 ≤ hi) :
    (l.map fun c => c.2.bearing_deg.getD 0 * _weight c.2.confidence).sum ≤
      hi * (l.map fun c => _weight c.2.confidence).sum := by
  induction l with
  | nil => simp
  | cons x xs ih =>
    rw [List.map_cons, List.sum_cons, List.map_cons, List.sum_cons, mul_add]
    have hx := h x (List.mem_cons_self _ _)
    have hw := _weight_ge x.2.confidence
    have h1 : x.2.bearing_deg.getD 0 * _weight x.2.confidence ≤ hi * _weight x.2.confidence :=
      mul_le_mul_of_nonneg_right hx (by linarith)
    have h2 := ih fun c hc => h c (List.mem_cons_of_mem _ hc)
    linarith

lemma le_weighted_sum (l : List (String × Observation)) (lo : ℚ)
    (h : ∀ c ∈ l, lo ≤ c.2.bearing_deg.getD 0) :
    lo * (l.map fun c => _weight c.2.confidence).sum ≤
      (l.map fun c => c.2.bearing_deg.getD 0 * _weight c.2.confidence).sum := by
  induction l with
  | nil => simp
  | cons x xs ih =>
    rw [List.map_cons, List.sum_cons, List.map_cons, List.sum_cons, mul_add]
    have hx := h x (List.mem_cons_self _ _)
    have hw := _weight_ge x.2.confidence
    have h1 : lo * _weight x.2.confidence ≤ x.2.bearing_deg.getD 0 * _weight x.2.confidence :=
      mul_le_mul_of_nonneg_right hx (by linarith)
    have h2 := ih fun c hc => h c (List.mem_cons_of_mem _ hc)
    linarith

lemma ratFloor_eq (x : ℚ) : (Rat.floor x : ℤ) = ⌊x⌋ := by
  rw [Rat.floor_def', Rat.floor_def]

lemma pyRound_sub_le (x : ℚ) : |(pyRound x : ℚ) - x| ≤ 1/2 := by
  rw [abs_le]
  simp only [pyRound]
  split_ifs with h1 h2
  · constructor <;> linarith
  · push_cast
    constructor <;> linarith
  · rw [ratFloor_eq]
    have hle := Int.floor_le (x + 1/2)
    have hlt := Int.lt_floor_add_one (x + 1/2)
    constructor <;> linarith

lemma round2_sub_le (x : ℚ) : |round2 x - x| ≤ 1/200 := by
  have h := pyRound_sub_le (x * 100)
  rw [abs_le] at h ⊢
  unfold round2
  constructor <;> [nlinarith; nlinarith]

/-- The shape of the fuse3 result on a non-empty candidate list: both branch
conditions are live, and every output field is exposed. -/
lemma fuse3_some (v t a : Option Observation) (h : candidates3 v t a ≠ []) :
    fuse3 v t a = some
      { time := ((((candidates3 v t a).map fun c => c.2.time).filter
          fun d => ¬ d.isEmpty).head?).getD [],
        source := "fusion",
        bearing_deg := some (round2 (candWeightedMean (candidates3 v t a))),
        roi := (((((candidates3 v t a).map fun c => (c.1, c.2.roi)).filter fun d =>
            (d.1 = "vision" ∨ d.1 = "thermal") ∧ d.2.isSome).head?).map Prod.snd).getD none,
        confidence := some (round3 (candMaxW (candidates3 v t a))),
        status := if 2 ≤ (candidates3 v t a).length then "OK" else "DEGRADED",
        extras := some ((candidates3 v t a).map Prod.fst) } := by
  have hW : 0 < (candidates3 v t a |>.map fun c => _weight c.2.confidence).sum :=
    sum_weights_pos _ h
  simp only [fuse3, candWeightedMean, candTotalW, candWeights, candMaxW]
  rw [if_neg, if_neg]
  · exact not_le.mpr hW
  · simpa [List.isEmpty_iff] using h

lemma fuse3_set_status_eq (v t a : Option Observation) (s1 s2 s3 : String) :
    fuse3 (v.map (set_status s1)) (t.map (set_status s2)) (a.map (set_status s3)) =
      fuse3 v t a := by
  rcases v with _ | ⟨tv, sv, (_ | bv), rv, cv, stv, ev⟩ <;>
    rcases t with _ | ⟨tt, st', (_ | bt), rt, ct, stt, et⟩ <;>
      rcases a with _ | ⟨ta, sa, (_ | ba), ra, ca, sta, ea⟩ <;>
        simp [fuse3, candidates3, set_status]

lemma candidates3_names (v t a : Option Observation) :
    (candidates3 v t a).map Prod.fst = candNames v t a := by
  rcases v with _ | ⟨tv, sv, (_ | bv), rv, cv, stv, ev⟩ <;>
    rcases t with _ | ⟨tt, st', (_ | bt), rt, ct, stt, et⟩ <;>
      rcases a with _ | ⟨ta, sa, (_ | ba), ra, ca, sta, ea⟩ <;>
        simp [candidates3, candNames, hasBearing]

end FusionLemmas

/- ### Concrete observations used by witnesses and counterexamples -/

/-- The spec's worked example: vision bearing 40 with confidence 0.8. -/
def vEx : Observation :=
  { time := [("mono_ms", 1000)], source := "vision", bearing_deg := some 40,
    roi := some [("x", 1)], confidence := some (4/5), status := "OK" }

/-- The spec's worked example: audio bearing 50 with confidence 0.4. -/
def aEx : Observation :=
  { time := [("mono_ms", 1000)], source := "audio", bearing_deg := some 50,
    roi := none, confidence := some (2/5), status := "OK" }

/-- Vision observation at bearing 10.001, weight 1. -/
def vC : Observation :=
  { time := [], source := "vision", bearing_deg := some (10001/1000),
    roi := none, confidence := some 1, status := "OK" }

/-- Audio observation at bearing 10.002, weight 1. -/
def aC : Observation :=
  { time := [], source := "audio", bearing_deg := some (10002/1000),
    roi := none, confidence := some 1, status := "OK" }

/- ### Fusion claims -/

/-- C5 (amended): for every fuse3 call with at least one candidate, the output
bearing is the confidence-weighted arithmetic mean of the candidate bearings
rounded to two decimal places, the output confidence is the maximum candidate
weight rounded to three decimal places, the status is OK for two or more
candidates and DEGRADED otherwise, and the contributor list is the candidate
names in order. -/
theorem fuse3_weighted_mean_rounded (v t a : Option Observation)
    (h : candidates3 v t a ≠ []) :
    ∃ r, fuse3 v t a = some r ∧
      r.bearing_deg = some (round2 (candWeightedMean (candidates3 v t a))) ∧
      (∃ w ∈ candWeights (candidates3 v t a), r.confidence = some (round3 w) ∧
        ∀ u ∈ candWeights (candidates3 v t a), u ≤ w) ∧
      r.status = (if 2 ≤ (candidates3 v t a).length then "OK" else "DEGRADED") ∧
      r.extras = some ((candidates3 v t a).map Prod.fst) := by
  refine ⟨_, fuse3_some v t a h, rfl, ?_, rfl, rfl⟩
  obtain ⟨c, cs', hcs⟩ : ∃ c cs', candidates3 v t a = c :: cs' := by
    cases hx : candidates3 v t a with
    | nil => exact absurd hx h
    | cons c cs' => exact ⟨c, cs', rfl⟩
  have hmem0 : _weight c.2.confidence ∈ candWeights (candidates3 v t a) := by
    rw [candWeights, hcs, List.map_cons]
    exact List.mem_cons_self _ _
  rcases foldl_qmax_mem (candWeights (candidates3 v t a)) 0 with h0 | hin
  · exfalso
    have hle := mem_le_foldl_qmax (candWeights (candidates3 v t a)) 0 _ hmem0
    rw [h0] at hle
    linarith [_weight_ge c.2.confidence]
  · exact ⟨candMaxW (candidates3 v t a), hin, rfl,
      fun u hu => mem_le_foldl_qmax _ 0 u hu⟩

/-- C5 counterexample: at the spec's own worked example (vision 40 at
confidence 0.8, audio 50 at confidence 0.4) the emitted bearing is exactly
43.33, which is not equal to the exact weighted arithmetic mean 130/3 of the
candidate bearings — the code rounds before emitting. -/
theorem fuse3_example_bearing_ne_exact_mean :
    (fuse3 (some vEx) none (some aEx)).map Observation.bearing_deg =
      some (some (4333/100)) ∧
    candWeightedMean (candidates3 (some vEx) none (some aEx)) = 130/3 ∧
    (4333/100 : ℚ) ≠ 130/3 := by
  refine ⟨?_, ?_, by norm_num⟩
  · simp only [fuse3, candidates3, vEx, aEx, List.filterMap_cons, List.filterMap_nil,
      Option.isSome_some, if_true, ite_true, List.isEmpty_cons, List.map_cons, List.map_nil,
      List.sum_cons, List.sum_nil, List.filter_cons, List.filter_nil, List.head?_cons,
      Option.map_some, Option.getD_some, Option.getD_none, List.isEmpty_nil,
      List.length_cons, List.length_nil, _weight]
    norm_num [round2, round3, pyRound, Rat.floor, qmax]
  · simp only [candWeightedMean, candTotalW, candWeights, candidates3, vEx, aEx,
      List.filterMap_cons, List.filterMap_nil, Option.isSome_some, ite_true,
      List.map_cons, List.map_nil, List.sum_cons, List.sum_nil, Option.getD_some, _weight]
    norm_num

/-- C5 witness: the amended statement evaluated at the worked example. -/
theorem fuse3_weighted_mean_rounded_witness :
    candidates3 (some vEx) none (some aEx) ≠ [] ∧
    ∃ r, fuse3 (some vEx) none (some aEx) = some r ∧
      r.bearing_deg = some (4333/100) ∧ r.confidence = some (4/5) ∧
      r.status = "OK" ∧ r.extras = some ["vision", "audio"] := by
  have hne : candidates3 (some vEx) none (some aEx) ≠ [] := by
    simp [candidates3, vEx, aEx]
  obtain ⟨r, hr, hb, -, hs, hx⟩ := fuse3_weighted_mean_rounded (some vEx) none (some aEx) hne
  refine ⟨hne, r, hr, ?_, ?_, ?_, ?_⟩
  · rw [hb]
    simp only [candWeightedMean, candTotalW, candWeights, candidates3, vEx, aEx,
      List.filterMap_cons, List.filterMap_nil, Option.isSome_some, ite_true,
      List.map_cons, List.map_nil, List.sum_cons, List.sum_nil, Option.getD_some, _weight]
    norm_num [round2, pyRound, Rat.floor]
  · have hev : (fuse3 (some vEx) none (some aEx)).map Observation.confidence =
        some (some (4/5)) := by
      simp only [fuse3, candidates3, vEx, aEx, List.filterMap_cons, List.filterMap_nil,
        Option.isSome_some, ite_true, List.isEmpty_cons, List.map_cons, List.map_nil,
        List.sum_cons, List.sum_nil, List.filter_cons, List.filter_nil, List.head?_cons,
        Option.map_some, Option.getD_some, Option.getD_none,
        List.length_cons, List.length_nil, _weight]
      norm_num [round3, pyRound, Rat.floor, qmax]
    rw [hr] at hev
    simpa using hev
  · rw [hs]
    simp [candidates3, vEx, aEx]
  · rw [hx]
    simp [candidates3, vEx, aEx]

/-- C6 (amended): fuse3 with no candidate yields nothing; with exactly one
candidate it yields DEGRADED with the candidate's bearing rounded to two
decimals; with two or more candidates it yields OK with a bearing within
0.005 (the two-decimal rounding slack) of the interval spanned by the
contributing bearings. -/
theorem fuse_candidate_count_statuses (v t a : Option Observation) :
    (candidates3 v t a = [] → fuse3 v t a = none) ∧
    (∀ nm o, candidates3 v t a = [(nm, o)] →
      ∃ r, fuse3 v t a = some r ∧ r.status = "DEGRADED" ∧
        r.bearing_deg = some (round2 (o.bearing_deg.getD 0))) ∧
    (2 ≤ (candidates3 v t a).length →
      ∃ r, fuse3 v t a = some r ∧ r.status = "OK" ∧
        ∀ lo hi, (∀ c ∈ candidates3 v t a,
            lo ≤ c.2.bearing_deg.getD 0 ∧ c.2.bearing_deg.getD 0 ≤ hi) →
          lo - 1/200 ≤ r.bearing_deg.getD 0 ∧ r.bearing_deg.getD 0 ≤ hi + 1/200) := by
  refine ⟨?_, ?_, ?_⟩
  · intro h
    simp [fuse3, h]
  · intro nm o h
    refine ⟨_, fuse3_some v t a (by rw [h]; simp), by rw [h]; rfl, ?_⟩
    have hw0 : (0:ℚ) < _weight o.confidence :=
      lt_of_lt_of_le (by norm_num) (_weight_ge o.confidence)
    simp only [Observation.bearing_deg]
    rw [h]
    simp only [candWeightedMean, candTotalW, candWeights, List.map_cons, List.map_nil,
      List.sum_cons, List.sum_nil, add_zero]
    rw [mul_div_cancel_right₀ _ (ne_of_gt hw0)]
  · intro h2
    have hne : candidates3 v t a ≠ [] := by
      intro hnil
      rw [hnil] at h2
      norm_num at h2
    refine ⟨_, fuse3_some v t a hne, by simp [if_pos h2], ?_⟩
    intro lo hi hb
    have hW : 0 < candTotalW (candidates3 v t a) := sum_weights_pos _ hne
    have hup : candWeightedMean (candidates3 v t a) ≤ hi := by
      rw [candWeightedMean, div_le_iff₀ hW]
    -- the weighted sum is bounded by hi times the total weight
      have hs := weighted_sum_le (candidates3 v t a) hi fun c hc => (hb c hc).2
      calc (List.map (fun c => c.2.bearing_deg.getD 0 * _weight c.2.confidence)
            (candidates3 v t a)).sum
          ≤ hi * (List.map (fun c => _weight c.2.confidence) (candidates3 v t a)).sum := hs
        _ = hi * candTotalW (candidates3 v t a) := rfl
    have hlo : lo ≤ candWeightedMean (candidates3 v t a) := by
      rw [candWeightedMean, le_div_iff₀ hW]
      have hs := le_weighted_sum (candidates3 v t a) lo fun c hc => (hb c hc).1
      calc lo * candTotalW (candidates3 v t a)
          = lo * (List.map (fun c => _weight c.2.confidence) (candidates3 v t a)).sum := rfl
        _ ≤ _ := hs
    have hr2 := round2_sub_le (candWeightedMean (candidates3 v t a))
    rw [abs_le] at hr2
    simp only [Observation.bearing_deg, Option.getD_some]
    constructor <;> linarith

/-- C6 counterexample: fusing vision bearing 10.001 and audio bearing 10.002
(both weight 1) emits bearing 10, which lies strictly below both contributing
bearings, so the fused bearing is not between the minimum and maximum
contributing bearings. -/
theorem fuse3_bearing_below_min_bearing :
    (fuse3 (some vC) none (some aC)).map Observation.bearing_deg =
      some (some 10) ∧
    vC.bearing_deg = some (10001/1000) ∧ aC.bearing_deg = some (10002/1000) ∧
    (10 : ℚ) < 10001/1000 ∧ (10 : ℚ) < 10002/1000 := by
  refine ⟨?_, rfl, rfl, by norm_num, by norm_num⟩
  simp only [fuse3, candidates3, vC, aC, List.filterMap_cons, List.filterMap_nil,
    Option.isSome_some, ite_true, List.isEmpty_cons, List.map_cons, List.map_nil,
    List.sum_cons, List.sum_nil, List.filter_cons, List.filter_nil, List.head?_cons,
    Option.map_some, Option.getD_some, Option.getD_none,
    List.length_cons, List.length_nil, _weight]
  norm_num [round2, round3, pyRound, Rat.floor, qmax]

/-- C6 witness: the amended statement evaluated on no candidates, a single
vision candidate, and the two-candidate worked example. -/
theorem fuse_candidate_count_statuses_witness :
    fuse3 none none none = none ∧
    (∃ r, fuse3 (some vEx) none none = some r ∧ r.status = "DEGRADED" ∧
      r.bearing_deg = some 40) ∧
    (∃ r, fuse3 (some vEx) none (some aEx) = some r ∧ r.status = "OK" ∧
      (40 : ℚ) - 1/200 ≤ r.bearing_deg.getD 0 ∧ r.bearing_deg.getD 0 ≤ 50 + 1/200) := by
  refine ⟨(fuse_candidate_count_statuses none none none).1 rfl, ?_, ?_⟩
  · obtain ⟨r, hr, hs, hb⟩ := (fuse_candidate_count_statuses (some vEx) none none).2.1
      "vision" vEx (by simp [candidates3, vEx])
    refine ⟨r, hr, hs, ?_⟩
    rw [hb]
    simp only [vEx, Option.getD_some]
    norm_num [round2, pyRound, Rat.floor]
  · obtain ⟨r, hr, hs, hb⟩ := (fuse_candidate_count_statuses (some vEx) none (some aEx)).2.2
      (by simp [candidates3, vEx, aEx])
    refine ⟨r, hr, hs, ?_⟩
    apply hb
    intro c hc
    simp only [candidates3, vEx, aEx, List.filterMap_cons, List.filterMap_nil,
      Option.isSome_some, ite_true, List.mem_cons, List.not_mem_nil, or_false] at hc
    rcases hc with h | h <;> subst h <;> norm_num

/-- C10: fuse3 selects candidates purely by bearing presence and never reads
the input status fields — replacing every input's status (for example with
INVALID or NO_SIGNAL) leaves the fused output unchanged, and the reported
contributor list is exactly the inputs that carry a bearing, in the fixed
vision, thermal, audio order. -/
theorem fuse3_ignores_input_status (v t a : Option Observation) (s1 s2 s3 : String) :
    fuse3 (v.map (set_status s1)) (t.map (set_status s2)) (a.map (set_status s3)) =
      fuse3 v t a ∧
    (candidates3 v t a).map Prod.fst = candNames v t a ∧
    (∀ r, fuse3 v t a = some r → r.extras = some (candNames v t a)) := by
  refine ⟨fuse3_set_status_eq v t a s1 s2 s3, candidates3_names v t a, ?_⟩
  intro r hr
  rcases hcs : candidates3 v t a with _ | ⟨c, cs'⟩
  · rw [fuse3, hcs] at hr
    simp at hr
  · rw [fuse3_some v t a (by rw [hcs]; simp)] at hr
    cases hr
    simp only [Observation.extras]
    rw [candidates3_names v t a]

/-- C10 witness: an INVALID-status vision observation and a NO_SIGNAL-status
audio observation fuse exactly as their OK-status counterparts do, and the
worked example's contributor list is vision then audio. -/
theorem fuse3_ignores_input_status_witness :
    fuse3 (some (set_status "INVALID" vEx)) none (some (set_status "NO_SIGNAL" aEx)) =
      fuse3 (some vEx) none (some aEx) ∧
    (fuse3 (some vEx) none (some aEx)).map Observation.extras =
      some (some ["vision", "audio"]) := by
  obtain ⟨h1, h2, h3⟩ :=
    fuse3_ignores_input_status (some vEx) none (some aEx) "INVALID" "OK" "NO_SIGNAL"
  constructor
  · simpa using h1
  · have hne : candidates3 (some vEx) none (some aEx) ≠ [] := by
      simp [candidates3, vEx, aEx]
    rw [fuse3_some (some vEx) none (some aEx) hne]
    have hx := h3 _ (fuse3_some (some vEx) none (some aEx) hne)
    simp [hx, candNames, hasBearing, vEx, aEx, candidates3]

/- ### Command gate claims -/

/-- C3: can_send returns false whenever link_status is any value other than
exactly "OK", for every gate state and every command type — an unconditional
veto independent of the allow-list, rate-limit or TTL state. -/
theorem can_send_false_when_link_not_ok (g : CommandGate) (now : ℚ) (cmd : String)
    (h : g.link_status ≠ "OK") : g.can_send now cmd = false := by
  unfold CommandGate.can_send
  split_ifs <;> rfl

/-- C3 witness: a gate with a LOST link rejects an allow-listed SET_YAW even
though its rate limiter would allow it. -/
theorem can_send_false_when_link_not_ok_witness :
    ({ config := {}, link_status := "LOST" } : CommandGate).can_send 100 "SET_YAW"
      = false :=
  can_send_false_when_link_not_ok
    { config := {}, link_status := "LOST" } 100 "SET_YAW" (by decide)

/- ### Offline batch fusion claim -/

/-- C9: in the offline batch fusion loop, whenever after ingesting a record
both a vision and an audio candidate are retained and their monotonic
timestamps differ by more than the configured staleness window, no fused
record is emitted at that step. -/
theorem replay_step_drops_stale_pair (window_ms : ℤ)
    (latest : String → Option Observation) (record v a : Observation)
    (hv : (if "vision" = record.source then some record else latest "vision") = some v)
    (ha : (if "audio" = record.source then some record else latest "audio") = some a)
    (hgap : window_ms < |get_mono_ms v.time - get_mono_ms a.time|) :
    (replay_step window_ms latest record).2 = none := by
  simp only [replay_step]
  rw [hv, ha]
  simp [hgap]

/-- Stale cached vision observation at monotonic time 0. -/
def vOld : Observation :=
  { time := [("mono_ms", 0)], source := "vision", bearing_deg := some 30,
    roi := none, confidence := some (1/2), status := "OK" }

/-- Fresh audio observation at monotonic time 1000. -/
def aNew : Observation :=
  { time := [("mono_ms", 1000)], source := "audio", bearing_deg := some 60,
    roi := none, confidence := some (1/2), status := "OK" }

/-- Latest-per-source map retaining only the stale vision observation. -/
def latest0 : String → Option Observation :=
  fun k => if k = "vision" then some vOld else none

/-- C9 witness: with a 200 ms window, a cached vision reading at 0 ms and an
incoming audio reading at 1000 ms produce no fused record. -/
theorem replay_step_drops_stale_pair_witness :
    (replay_step 200 latest0 aNew).2 = none :=
  replay_step_drops_stale_pair 200 latest0 aNew vOld aNew
    (by simp [latest0, aNew]) (by simp [aNew])
    (by norm_num [get_mono_ms, vOld, aNew, List.lookup])

/- ### State-controller helper lemmas -/

section FSMLemmas

open FSM

@[simp] lemma emit_event_state (now : ℚ) (et nt : String) (s : FSMState) :
    (emit_event now et nt s).state = s.state := by
  unfold emit_event; split_ifs <;> rfl

@[simp] lemma emit_event_commands (now : ℚ) (et nt : String) (s : FSMState) :
    (emit_event now et nt s).commands = s.commands := by
  unfold emit_event; split_ifs <;> rfl

@[simp] lemma emit_event_gate (now : ℚ) (et nt : String) (s : FSMState) :
    (emit_event now et nt s).gate = s.gate := by
  unfold emit_event; split_ifs <;> rfl

@[simp] lemma emit_event_cfg (now : ℚ) (et nt : String) (s : FSMState) :
    (emit_event now et nt s).cfg = s.cfg := by
  unfold emit_event; split_ifs <;> rfl

@[simp] lemma emit_event_sensor (now : ℚ) (et nt : String) (s : FSMState) :
    (emit_event now et nt s).sensor = s.sensor := by
  unfold emit_event; split_ifs <;> rfl

@[simp] lemma emit_event_control (now : ℚ) (et nt : String) (s : FSMState) :
    (emit_event now et nt s).control = s.control := by
  unfold emit_event; split_ifs <;> rfl

@[simp] lemma emit_event_degraded_since (now : ℚ) (et nt : String) (s : FSMState) :
    (emit_event now et nt s).degraded_since = s.degraded_since := by
  unfold emit_event; split_ifs <;> rfl

@[simp] lemma emit_event_active_source (now : ℚ) (et nt : String) (s : FSMState) :
    (emit_event now et nt s).active_source = s.active_source := by
  unfold emit_event; split_ifs <;> rfl

@[simp] lemma emit_event_last_seen (now : ℚ) (et nt : String) (s : FSMState) :
    (emit_event now et nt s).last_seen = s.last_seen := by
  unfold emit_event; split_ifs <;> rfl

@[simp] lemma transition_state (now : ℚ) (ns r : String) (s : FSMState) :
    (transition now ns r s).state = ns := by
  unfold transition
  split_ifs with h
  · simp
  · rw [not_ne_iff] at h
    exact h.symm

@[simp] lemma transition_commands (now : ℚ) (ns r : String) (s : FSMState) :
    (transition now ns r s).commands = s.commands := by
  unfold transition; split_ifs <;> simp

@[simp] lemma transition_gate (now : ℚ) (ns r : String) (s : FSMState) :
    (transition now ns r s).gate = s.gate := by
  unfold transition; split_ifs <;> simp

@[simp] lemma transition_cfg (now : ℚ) (ns r : String) (s : FSMState) :
    (transition now ns r s).cfg = s.cfg := by
  unfold transition; split_ifs <;> simp

@[simp] lemma transition_sensor (now : ℚ) (ns r : String) (s : FSMState) :
    (transition now ns r s).sensor = s.sensor := by
  unfold transition; split_ifs <;> simp

@[simp] lemma transition_control (now : ℚ) (ns r : String) (s : FSMState) :
    (transition now ns r s).control = s.control := by
  unfold transition; split_ifs <;> simp

@[simp] lemma transition_degraded_since (now : ℚ) (ns r : String) (s : FSMState) :
    (transition now ns r s).degraded_since = s.degraded_since := by
  unfold transition; split_ifs <;> simp

@[simp] lemma transition_active_source (now : ℚ) (ns r : String) (s : FSMState) :
    (transition now ns r s).active_source = s.active_source := by
  unfold transition; split_ifs <;> simp

@[simp] lemma transition_last_seen (now : ℚ) (ns r : String) (s : FSMState) :
    (transition now ns r s).last_seen = s.last_seen := by
  unfold transition; split_ifs <;> simp

@[simp] lemma log_command_state (rec : CmdRecord) (s : FSMState) :
    (log_command rec s).state = s.state := rfl

@[simp] lemma log_command_gate (rec : CmdRecord) (s : FSMState) :
    (log_command rec s).gate = s.gate := rfl

@[simp] lemma log_command_cfg (rec : CmdRecord) (s : FSMState) :
    (log_command rec s).cfg = s.cfg := rfl

@[simp] lemma log_command_sensor (rec : CmdRecord) (s : FSMState) :
    (log_command rec s).sensor = s.sensor := rfl

@[simp] lemma log_command_control (rec : CmdRecord) (s : FSMState) :
    (log_command rec s).control = s.control := rfl

@[simp] lemma log_command_commands (rec : CmdRecord) (s : FSMState) :
    (log_command rec s).commands = s.commands ++ [rec] := rfl

@[simp] lemma _send_yaw_state (now b : ℚ) (s : FSMState) :
    (FSM._send_yaw now b s).state = s.state := by
  simp only [FSM._send_yaw, log_command]; split_ifs <;> rfl

@[simp] lemma _send_yaw_sensor (now b : ℚ) (s : FSMState) :
    (FSM._send_yaw now b s).sensor = s.sensor := by
  simp only [FSM._send_yaw, log_command]; split_ifs <;> rfl

@[simp] lemma _send_yaw_cfg (now b : ℚ) (s : FSMState) :
    (FSM._send_yaw now b s).cfg = s.cfg := by
  simp only [FSM._send_yaw, log_command]; split_ifs <;> rfl

@[simp] lemma _send_yaw_control (now b : ℚ) (s : FSMState) :
    (FSM._send_yaw now b s).control = s.control := by
  simp only [FSM._send_yaw, log_command]; split_ifs <;> rfl

@[simp] lemma _send_yaw_commands (now b : ℚ) (s : FSMState) :
    (FSM._send_yaw now b s).commands = s.commands ++
      [⟨"SET_YAW", some b, some s.cfg.yaw_rate, none, s.gate.can_send now "SET_YAW", "fsm"⟩] := by
  simp only [FSM._send_yaw, log_command]; split_ifs <;> rfl

@[simp] lemma _send_return_state (now : ℚ) (s : FSMState) :
    (FSM._send_return now s).state = s.state := by
  simp only [FSM._send_return, log_command]; split_ifs <;> rfl

@[simp] lemma _send_return_sensor (now : ℚ) (s : FSMState) :
    (FSM._send_return now s).sensor = s.sensor := by
  simp only [FSM._send_return, log_command]; split_ifs <;> rfl

@[simp] lemma _send_return_commands (now : ℚ) (s : FSMState) :
    (FSM._send_return now s).commands = s.commands ++
      [⟨"SET_MODE", none, none, some "RTL", s.gate.can_send now "SET_MODE", "fsm-return"⟩] := by
  simp only [FSM._send_return, log_command]; split_ifs <;> rfl

@[simp] lemma update_health_state (now : ℚ) (obs : Option FsmObs) (s : FSMState) :
    (update_health now obs s).state = s.state := by
  cases obs with
  | none => rfl
  | some o => simp only [update_health]; split_ifs <;> rfl

@[simp] lemma update_health_commands (now : ℚ) (obs : Option FsmObs) (s : FSMState) :
    (update_health now obs s).commands = s.commands := by
  cases obs with
  | none => rfl
  | some o => simp only [update_health]; split_ifs <;> rfl

@[simp] lemma update_health_gate (now : ℚ) (obs : Option FsmObs) (s : FSMState) :
    (update_health now obs s).gate = s.gate := by
  cases obs with
  | none => rfl
  | some o => simp only [update_health]; split_ifs <;> rfl

@[simp] lemma update_health_cfg (now : ℚ) (obs : Option FsmObs) (s : FSMState) :
    (update_health now obs s).cfg = s.cfg := by
  cases obs with
  | none => rfl
  | some o => simp only [update_health]; split_ifs <;> rfl

@[simp] lemma update_health_control (now : ℚ) (obs : Option FsmObs) (s : FSMState) :
    (update_health now obs s).control = s.control := by
  cases obs with
  | none => rfl
  | some o => simp only [update_health]; split_ifs <;> rfl

@[simp] lemma update_health_degraded_since (now : ℚ) (obs : Option FsmObs) (s : FSMState) :
    (update_health now obs s).degraded_since = s.degraded_since := by
  cases obs with
  | none => rfl
  | some o => simp only [update_health]; split_ifs <;> rfl

@[simp] lemma update_health_active_source (now : ℚ) (obs : Option FsmObs) (s : FSMState) :
    (update_health now obs s).active_source = s.active_source := by
  cases obs with
  | none => rfl
  | some o => simp only [update_health]; split_ifs <;> rfl

@[simp] lemma update_health_last_seen (now : ℚ) (obs : Option FsmObs) (s : FSMState) :
    (update_health now obs s).last_seen = s.last_seen := by
  cases obs with
  | none => rfl
  | some o => simp only [update_health]; split_ifs <;> rfl

@[simp] lemma countCmd_append (t : String) (l1 l2 : List CmdRecord) :
    countCmd t (l1 ++ l2) = countCmd t l1 + countCmd t l2 := by
  simp [countCmd, List.countP_append]

@[simp] lemma countCmd_nil (t : String) : countCmd t [] = 0 := rfl

@[simp] lemma countCmd_single (t : String) (r : CmdRecord) :
    countCmd t [r] = if r.ctype == t then 1 else 0 := by
  simp [countCmd, List.countP_cons]

/-- The no-valid-observation branch never issues a return command and never
moves the machine into or out of RETURN. -/
lemma no_valid_sm (now : ℚ) (s : FSMState) :
    countCmd "SET_MODE" (no_valid now s).commands = countCmd "SET_MODE" s.commands ∧
    ((no_valid now s).state = RETURN ↔ s.state = RETURN) := by
  by_cases hR : s.state = "RETURN"
  · simp [no_valid, hR, RETURN, LOST, SCAN, LOCKED, TRACK]
  · simp only [no_valid]
    split_ifs <;>
      exact ⟨by simp [beq_iff_eq], by simp [hR, RETURN, LOST, SCAN, LOCKED, TRACK, SEARCH]⟩

/-- The IDLE/SEARCH advance never issues a command and never moves the
machine into or out of RETURN. -/
lemma mv_advance_sm (now : ℚ) (s : FSMState) :
    countCmd "SET_MODE" (mv_advance now s).commands = countCmd "SET_MODE" s.commands ∧
    ((mv_advance now s).state = RETURN ↔ s.state = RETURN) := by
  simp only [mv_advance]
  split_ifs <;> constructor <;> simp_all [RETURN, IDLE, SEARCH, SCAN]

/-- The engage block only issues yaw commands and never moves the machine
into or out of RETURN. -/
lemma mv_engage_sm (now : ℚ) (o : FsmObs) (s : FSMState) :
    countCmd "SET_MODE" (mv_engage now o s).commands = countCmd "SET_MODE" s.commands ∧
    ((mv_engage now o s).state = RETURN ↔ s.state = RETURN) := by
  simp only [mv_engage]
  split_ifs <;> constructor <;> simp_all [RETURN, SCAN, LOCKED, TRACK, beq_iff_eq]

/-- The valid-observation branch never issues a return command and never
moves the machine into or out of RETURN. -/
lemma main_valid_sm (now : ℚ) (o : FsmObs) (s : FSMState) :
    countCmd "SET_MODE" (main_valid now o s).commands = countCmd "SET_MODE" s.commands ∧
    ((main_valid now o s).state = RETURN ↔ s.state = RETURN) := by
  simp only [main_valid]
  split_ifs with h
  · obtain ⟨e1, e2⟩ := mv_engage_sm now o (mv_advance now { s with last_seen := now })
    obtain ⟨a1, a2⟩ := mv_advance_sm now { s with last_seen := now }
    exact ⟨e1.trans a1, e2.trans a2⟩
  · exact mv_advance_sm now { s with last_seen := now }

/-- Auto-recovery plus the primary logic never issues a return command and
never moves the machine into or out of RETURN. -/
lemma step_rest_sm (now : ℚ) (obs : Option FsmObs) (s : FSMState) :
    countCmd "SET_MODE" (step_rest now obs s).commands = countCmd "SET_MODE" s.commands ∧
    ((step_rest now obs s).state = RETURN ↔ s.state = RETURN) := by
  have key : ∀ s' : FSMState,
      countCmd "SET_MODE" s'.commands = countCmd "SET_MODE" s.commands →
      ((s'.state = RETURN ↔ s.state = RETURN)) →
      ∀ u : FSMState,
        (u = match obs with
          | some o =>
            if o.status = "OK" ∧ o.bearing_deg.isSome then main_valid now o s'
            else no_valid now s'
          | none => no_valid now s') →
        countCmd "SET_MODE" u.commands = countCmd "SET_MODE" s.commands ∧
          (u.state = RETURN ↔ s.state = RETURN) := by
    intro s' hc hs u hu
    cases obs with
    | none =>
      obtain ⟨h1, h2⟩ := no_valid_sm now s'
      subst hu
      exact ⟨h1.trans hc, h2.trans hs⟩
    | some o =>
      have hu' : u = if o.status = "OK" ∧ o.bearing_deg.isSome then main_valid now o s'
          else no_valid now s' := hu
      by_cases hv : o.status = "OK" ∧ o.bearing_deg.isSome
      · rw [if_pos hv] at hu'
        obtain ⟨h1, h2⟩ := main_valid_sm now o s'
        subst hu'
        exact ⟨h1.trans hc, h2.trans hs⟩
      · rw [if_neg hv] at hu'
        obtain ⟨h1, h2⟩ := no_valid_sm now s'
        subst hu'
        exact ⟨h1.trans hc, h2.trans hs⟩
  simp only [step_rest]
  split_ifs with h
  · exact key _ (by simp) (by simp [h.1, RETURN, SEARCH, DEGRADED]) _ rfl
  · exact key s rfl Iff.rfl _ rfl

/-- The RETURN-count invariant survives the tail of the step. -/
lemma step_rest_inv (now : ℚ) (obs : Option FsmObs) (s' : FSMState)
    (h : countCmd "SET_MODE" s'.commands = if s'.state = RETURN then 1 else 0) :
    countCmd "SET_MODE" (step_rest now obs s').commands =
      if (step_rest now obs s').state = RETURN then 1 else 0 := by
  obtain ⟨r1, r2⟩ := step_rest_sm now obs s'
  rw [r1, h]
  by_cases hs : s'.state = RETURN
  · simp [hs, r2.mpr hs]
  · have hns : (step_rest now obs s').state ≠ RETURN := fun hr => hs (r2.mp hr)
    simp [hs, hns]

/-- Issuing the return command from a state that has not issued one yet
establishes the RETURN-count invariant. -/
lemma send_return_one (now : ℚ) (r : String) (s' : FSMState)
    (h0 : countCmd "SET_MODE" s'.commands = 0) :
    countCmd "SET_MODE" (FSM._send_return now (transition now RETURN r s')).commands =
      if (FSM._send_return now (transition now RETURN r s')).state = RETURN then 1 else 0 := by
  simp [h0]

/-- One FSM step preserves the invariant that the commands log holds exactly
one SET_MODE record when and only when the machine is in RETURN. -/
lemma step_inv (now : ℚ) (obs : Option FsmObs) (s : FSMState)
    (h : countCmd "SET_MODE" s.commands = if s.state = RETURN then 1 else 0) :
    countCmd "SET_MODE" (step now obs s).commands =
      if (step now obs s).state = RETURN then 1 else 0 := by
  have h1 : countCmd "SET_MODE" (update_health now obs s).commands =
      if (update_health now obs s).state = RETURN then 1 else 0 := by simpa using h
  suffices key : ∀ u, u = step now obs s →
      countCmd "SET_MODE" u.commands = if u.state = RETURN then 1 else 0 from key _ rfl
  intro u hu
  simp only [step] at hu
  split_ifs at hu with hA hB hC hD
  · subst hu
    exact send_return_one now _ _ (by rw [h1, if_neg hA.2.2.1])
  · subst hu
    refine send_return_one now _ _ ?_
    have h0 : countCmd "SET_MODE" (update_health now obs s).commands = 0 := by
      rw [h1, if_neg hB.2.2]
    simpa using h0
  · subst hu
    refine step_rest_inv now obs _ ?_
    have h0 : countCmd "SET_MODE" s.commands = 0 := by
      rw [h, if_neg (show s.state ≠ RETURN by simpa using hB.2.2)]
    simp [h0, DEGRADED, RETURN]
  · subst hu
    refine send_return_one now _ _ ?_
    have hne : (update_health now obs s).state ≠ RETURN := by
      rw [hD.2.1]
      simp [DEGRADED, RETURN]
    rw [h1, if_neg hne]
  · subst hu
    exact step_rest_inv now obs _ h1

/-- A machine already in RETURN stays in RETURN for every further step. -/
lemma step_preserves_return (now : ℚ) (obs : Option FsmObs) (s : FSMState)
    (h : s.state = RETURN) : (step now obs s).state = RETURN := by
  have h1 : (update_health now obs s).state = RETURN := by simpa using h
  suffices key : ∀ u, u = step now obs s → u.state = RETURN from key _ rfl
  intro u hu
  simp only [step] at hu
  split_ifs at hu with hA hB hC hD
  · exact absurd h1 hA.2.2.1
  · exact absurd h1 hB.2.2
  · exact absurd h1 hB.2.2
  · exact absurd (h1 ▸ hD.2.1) (by simp [DEGRADED, RETURN])
  · subst hu
    exact (step_rest_sm now obs _).2.mpr h1

/-- The RETURN-count invariant holds along any run. -/
lemma run_inv (inputs : List (ℚ × Option FsmObs)) :
    ∀ s : FSMState, countCmd "SET_MODE" s.commands = (if s.state = RETURN then 1 else 0) →
      countCmd "SET_MODE" (run s inputs).commands =
        if (run s inputs).state = RETURN then 1 else 0 := by
  induction inputs with
  | nil => intro s h; simpa [run] using h
  | cons p rest ih =>
    intro s h
    simp only [run, List.foldl_cons]
    exact ih _ (step_inv p.1 p.2 s h)

end FSMLemmas

/- ### State-controller claims -/

/-- C2: once the FSM has entered RETURN, every subsequent step leaves it in
RETURN (RETURN is terminal); over any run from the cold-start state the
commands log holds exactly one SET_MODE RTL attempt exactly when the machine
has reached RETURN (so never more than one); and BOTH_FAIL health under
both_fail_action = "return" drives any non-DEGRADED, non-RETURN state to
RETURN while logging exactly one such attempt. -/
theorem fsm_return_terminal_single_rtl :
    (∀ (s : FSMState) (now : ℚ) (obs : Option FsmObs),
      s.state = FSM.RETURN → (FSM.step now obs s).state = FSM.RETURN) ∧
    (∀ (cfg : FSMConfig) (gate : CommandGate) (control : Bool) (t0 : ℚ)
      (inputs : List (ℚ × Option FsmObs)),
      countCmd "SET_MODE" (FSM.run (FSM.init cfg gate control t0) inputs).commands =
        if (FSM.run (FSM.init cfg gate control t0) inputs).state = FSM.RETURN
        then 1 else 0) ∧
    (∀ (s : FSMState) (now : ℚ),
      s.cfg.both_fail_action = "return" → s.sensor.status now = "BOTH_FAIL" →
      s.state ≠ FSM.DEGRADED → s.state ≠ FSM.RETURN →
      (FSM.step now none s).state = FSM.RETURN ∧
      countCmd "SET_MODE" (FSM.step now none s).commands =
        countCmd "SET_MODE" s.commands + 1) := by
  refine ⟨fun s now obs h => step_preserves_return now obs s h, ?_, ?_⟩
  · intro cfg gate control t0 inputs
    refine run_inv inputs _ ?_
    simp [FSM.init, FSM.IDLE, FSM.RETURN]
  · intro s now hact hst hD hR
    have hdact : FSM._check_degradation now s = some "return" := by
      rw [FSM._check_degradation, hst]
      simp [hact]
    constructor
    · simp [FSM.step, FSM.update_health, hdact, FSM.truthyStr, hD, hR]
    · simp [FSM.step, FSM.update_health, hdact, FSM.truthyStr, hD, hR]

/-- Cold-start FSM state with default configuration, an attached sink and an
all-default gate, started at time 0. -/
def fsm0 : FSMState := FSM.init {} { config := {} } true 0

/-- C2 witness: one step at time 100 with no observation (both sensor
timestamps still 0, so health is BOTH_FAIL) drives the cold-start machine to
RETURN with exactly one SET_MODE record in the log. -/
theorem fsm_return_terminal_single_rtl_witness :
    (FSM.run fsm0 [(100, none)]).state = FSM.RETURN ∧
    countCmd "SET_MODE" (FSM.run fsm0 [(100, none)]).commands = 1 := by
  have h3 := fsm_return_terminal_single_rtl.2.2 fsm0 100 rfl
    (by norm_num [fsm0, FSM.init, SensorHealth.status, SensorHealth.vision_ok,
      SensorHealth.audio_ok])
    (by simp [fsm0, FSM.init, FSM.IDLE, FSM.DEGRADED])
    (by simp [fsm0, FSM.init, FSM.IDLE, FSM.RETURN])
  have hrun : FSM.run fsm0 [(100, none)] = FSM.step 100 none fsm0 := by
    simp [FSM.run]
  rw [hrun]
  refine ⟨h3.1, ?_⟩
  rw [h3.2]
  simp [fsm0, FSM.init]

/-- C4 (amended): when dispatch to the vehicle command sink fails during an
allowed SET_YAW attempt, the decision has already been logged for that step,
but mark_sent is NOT invoked — the gate (and so the rate limiter's last-send
time) is left untouched — and the failure propagates out of the send as an
exception instead of being confined to the attempt. -/
theorem send_yaw_sink_failure_skips_mark_sent (s : FSMState) (now b : ℚ)
    (hallow : s.gate.can_send now "SET_YAW" = true) (hctl : s.control = true) :
    FSM.sendOk (FSM._send_yawE false now b s) = false ∧
    (FSM.sendOutcome (FSM._send_yawE false now b s)).gate = s.gate ∧
    (FSM.sendOutcome (FSM._send_yawE false now b s)).commands = s.commands ++
      [⟨"SET_YAW", some b, some s.cfg.yaw_rate, none, true, "fsm"⟩] := by
  simp [FSM._send_yawE, FSM.log_command, FSM.sendOk, FSM.sendOutcome, hallow, hctl]

/-- FSM state sitting in SCAN with fresh sensors and a fully open gate. -/
def sScan : FSMState :=
  { cfg := {}, gate := { config := {} }, control := true, state := FSM.SCAN,
    prev_state := FSM.SEARCH, last_seen := 99, degraded_since := none,
    lastEvent := fun _ => 0, sensor := { timeout := 3, lastVision := 100, lastAudio := 100 },
    active_source := "fused", events := [], commands := [] }

/-- C4 counterexample: at a concrete state whose gate allows the SET_YAW
attempt, a failing sink makes _send_yaw raise (the attempt is not confined to
the step) and mark_sent is never invoked — the gate's last-send time stays 0
instead of being updated to the current time 100. -/
theorem send_yaw_sink_failure_cex :
    sScan.gate.can_send 100 "SET_YAW" = true ∧
    FSM.sendOk (FSM._send_yawE false 100 45 sScan) = false ∧
    (FSM.sendOutcome (FSM._send_yawE false 100 45 sScan)).gate.last_send = 0 ∧
    (0 : ℚ) ≠ 100 := by
  have hallow : sScan.gate.can_send 100 "SET_YAW" = true := by
    simp only [CommandGate.can_send, sScan]
    norm_num
  have hctl : sScan.control = true := rfl
  have hls : sScan.gate.last_send = 0 := rfl
  refine ⟨hallow, ?_, ?_, by norm_num⟩ <;>
    simp [FSM._send_yawE, FSM.log_command, FSM.sendOk, FSM.sendOutcome, hallow, hctl, hls]

/-- C4 witness: the amended statement applied at the same concrete state —
the attempt is logged with its allowed flag, the gate is untouched. -/
theorem send_yaw_sink_failure_skips_mark_sent_witness :
    FSM.sendOk (FSM._send_yawE false 100 45 sScan) = false ∧
    (FSM.sendOutcome (FSM._send_yawE false 100 45 sScan)).gate = sScan.gate ∧
    (FSM.sendOutcome (FSM._send_yawE false 100 45 sScan)).commands =
      [⟨"SET_YAW", some 45, some 30, none, true, "fsm"⟩] := by
  have hallow : sScan.gate.can_send 100 "SET_YAW" = true := by
    simp only [CommandGate.can_send, sScan]
    norm_num
  obtain ⟨h1, h2, h3⟩ := send_yaw_sink_failure_skips_mark_sent sScan 100 45 hallow rfl
  refine ⟨h1, h2, ?_⟩
  rw [h3]
  simp [sScan]

/-- C1 (amended): from LOST with no valid observation and healthy sensors,
the FSM transitions to SEARCH on that very step regardless of the gate TTL;
a stop command is logged (exactly one) only when the gate's TTL has expired
at that step, and no stop is logged when it has not. -/
theorem lost_resumes_search_unconditionally (s : FSMState) (now : ℚ)
    (hL : s.state = FSM.LOST) (hok : s.sensor.status now = "ALL_OK") :
    (FSM.step now none s).state = FSM.SEARCH ∧
    countCmd "STOP" (FSM.step now none s).commands =
      countCmd "STOP" s.commands + (if s.gate.expired now then 1 else 0) := by
  have hdact : FSM._check_degradation now s = none := by
    rw [FSM._check_degradation, hok]
    simp
  have hstep : FSM.step now none s = FSM.no_valid now s := by
    simp [FSM.step, FSM.update_health, hdact, FSM.truthyStr, FSM.step_rest, hL,
      FSM.LOST, FSM.DEGRADED]
  rw [hstep]
  simp only [FSM.no_valid]
  rw [if_neg (show ¬((s.state = FSM.SCAN ∨ s.state = FSM.LOCKED ∨ s.state = FSM.TRACK) ∧
      s.cfg.lost_timeout < now - s.last_seen) by
    simp [hL, FSM.LOST, FSM.SCAN, FSM.LOCKED, FSM.TRACK])]
  rw [if_pos hL]
  constructor
  · simp
  · split_ifs <;> simp [beq_iff_eq]

/-- FSM state in LOST with fresh sensors and a gate whose TTL has long
expired (no command ever sent). -/
def sLost : FSMState :=
  { cfg := {}, gate := { config := {} }, control := true, state := FSM.LOST,
    prev_state := FSM.TRACK, last_seen := 99, degraded_since := none,
    lastEvent := fun _ => 0, sensor := { timeout := 3, lastVision := 100, lastAudio := 100 },
    active_source := "fused", events := [], commands := [] }

/-- FSM state in LOST with fresh sensors and a gate whose last command was
sent at time 100, so its one-second TTL has not expired at time 100. -/
def sLost2 : FSMState :=
  { cfg := {}, gate := { config := {}, last_cmd := 100 }, control := true, state := FSM.LOST,
    prev_state := FSM.TRACK, last_seen := 99, degraded_since := none,
    lastEvent := fun _ => 0, sensor := { timeout := 3, lastVision := 100, lastAudio := 100 },
    active_source := "fused", events := [], commands := [] }

/-- C1 witness: with an expired TTL, the step from LOST logs exactly one stop
and resumes SEARCH. -/
theorem lost_resumes_search_unconditionally_witness :
    (FSM.step 100 none sLost).state = FSM.SEARCH ∧
    countCmd "STOP" (FSM.step 100 none sLost).commands = 1 := by
  have hok : sLost.sensor.status 100 = "ALL_OK" := by
    norm_num [sLost, SensorHealth.status, SensorHealth.vision_ok, SensorHealth.audio_ok]
  obtain ⟨h1, h2⟩ := lost_resumes_search_unconditionally sLost 100 rfl hok
  refine ⟨h1, ?_⟩
  rw [h2]
  have hexp : sLost.gate.expired 100 = true := by
    norm_num [sLost, CommandGate.expired]
  have hcmds : sLost.commands = [] := rfl
  simp [hexp, hcmds]

/-- C1 counterexample: in LOST with the gate TTL not expired, the very next
step still moves the FSM to SEARCH (it does not remain in LOST) and logs no
stop command. -/
theorem lost_to_search_without_ttl_cex :
    sLost2.state = FSM.LOST ∧
    sLost2.gate.expired 100 = false ∧
    (FSM.step 100 none sLost2).state = FSM.SEARCH ∧
    countCmd "STOP" (FSM.step 100 none sLost2).commands = 0 ∧
    FSM.SEARCH ≠ FSM.LOST := by
  have hok : sLost2.sensor.status 100 = "ALL_OK" := by
    norm_num [sLost2, SensorHealth.status, SensorHealth.vision_ok, SensorHealth.audio_ok]
  have hdact : FSM._check_degradation 100 sLost2 = none := by
    rw [FSM._check_degradation, hok]
    simp
  have hexp : sLost2.gate.expired 100 = false := by
    norm_num [sLost2, CommandGate.expired]
  have hstep : FSM.step 100 none sLost2 = FSM.no_valid 100 sLost2 := by
    simp [FSM.step, FSM.update_health, hdact, FSM.truthyStr, FSM.step_rest,
      show sLost2.state = FSM.LOST from rfl, FSM.LOST, FSM.DEGRADED]
  have hnv : FSM.no_valid 100 sLost2 = FSM.transition 100 FSM.SEARCH "resume_search" sLost2 := by
    simp only [FSM.no_valid]
    rw [if_neg (show ¬((sLost2.state = FSM.SCAN ∨ sLost2.state = FSM.LOCKED ∨
        sLost2.state = FSM.TRACK) ∧ sLost2.cfg.lost_timeout < 100 - sLost2.last_seen) by
      simp [show sLost2.state = FSM.LOST from rfl, FSM.LOST, FSM.SCAN, FSM.LOCKED, FSM.TRACK])]
    rw [if_pos (show sLost2.state = FSM.LOST from rfl)]
    rw [if_neg (by rw [hexp]; simp)]
  refine ⟨rfl, hexp, ?_, ?_, by simp [FSM.SEARCH, FSM.LOST]⟩
  · rw [hstep, hnv]
    simp
  · rw [hstep, hnv]
    simp [sLost2]

section SensorPreservation

open FSM

@[simp] lemma no_valid_sensor (now : ℚ) (s : FSMState) :
    (no_valid now s).sensor = s.sensor := by
  simp only [no_valid]
  split_ifs <;> simp

@[simp] lemma mv_advance_sensor (now : ℚ) (s : FSMState) :
    (mv_advance now s).sensor = s.sensor := by
  simp only [mv_advance]
  split_ifs <;> simp

@[simp] lemma mv_engage_sensor (now : ℚ) (o : FsmObs) (s : FSMState) :
    (mv_engage now o s).sensor = s.sensor := by
  simp only [mv_engage]
  split_ifs <;> simp

@[simp] lemma main_valid_sensor (now : ℚ) (o : FsmObs) (s : FSMState) :
    (main_valid now o s).sensor = s.sensor := by
  simp only [main_valid]
  split_ifs <;> simp

@[simp] lemma step_rest_sensor (now : ℚ) (obs : Option FsmObs) (s : FSMState) :
    (step_rest now obs s).sensor = s.sensor := by
  cases obs with
  | none => simp only [step_rest]; split_ifs <;> simp
  | some o => simp only [step_rest]; split_ifs <;> simp

/-- Nothing after the health-update prologue of the step writes the sensor
timestamps. -/
lemma step_sensor (now : ℚ) (obs : Option FsmObs) (s : FSMState) :
    (step now obs s).sensor = (update_health now obs s).sensor := by
  suffices key : ∀ u, u = step now obs s → u.sensor = (update_health now obs s).sensor
    from key _ rfl
  intro u hu
  simp only [step] at hu
  split_ifs at hu <;> subst hu <;> simp

end SensorPreservation

/-- C7 (amended): for every FSM step, an observation with status "OK" that
names vision (respectively audio) — as its source or among its contributing
sources — updates that sensor's last-seen timestamp to the current time, and
a fusion/fused-sourced OK observation updates both.  (Observations whose
status is not "OK" never touch the timestamps.) -/
theorem health_updates_from_ok_observation (s : FSMState) (now : ℚ) (o : FsmObs)
    (hok : o.status = "OK") :
    ((o.source = "vision" ∨ "vision" ∈ o.sources) →
      (FSM.step now (some o) s).sensor.lastVision = now) ∧
    ((o.source = "audio" ∨ "audio" ∈ o.sources) →
      (FSM.step now (some o) s).sensor.lastAudio = now) ∧
    ((o.source = "fusion" ∨ o.source = "fused") →
      (FSM.step now (some o) s).sensor.lastVision = now ∧
      (FSM.step now (some o) s).sensor.lastAudio = now) := by
  rw [step_sensor]
  refine ⟨fun h => ?_, fun h => ?_, fun h => ?_⟩ <;>
    · simp only [FSM.update_health, hok, if_pos]
      split_ifs <;>
        simp_all [SensorHealth.update_vision, SensorHealth.update_audio]

/-- Fused observation with status DEGRADED that names vision as contributor. -/
def oDeg : FsmObs :=
  { status := "DEGRADED", source := "fusion", sources := ["vision"],
    bearing_deg := some 10, confidence := some (9/10) }

/-- Fused OK observation naming both vision and audio. -/
def oOk : FsmObs :=
  { status := "OK", source := "fusion", sources := ["vision", "audio"],
    bearing_deg := some 45, confidence := some (7/10) }

/-- C7 counterexample: an observation with status DEGRADED that names vision
among its contributing sources does not update the vision last-seen
timestamp — it stays 0 instead of becoming the current time 100, because the
health update only runs for status "OK". -/
theorem health_not_updated_without_ok_status_cex :
    oDeg.status = "DEGRADED" ∧ "vision" ∈ oDeg.sources ∧
    fsm0.sensor.lastVision = 0 ∧
    (FSM.step 100 (some oDeg) fsm0).sensor.lastVision = 0 ∧ (0 : ℚ) ≠ 100 := by
  refine ⟨rfl, by simp [oDeg], rfl, ?_, by norm_num⟩
  rw [step_sensor]
  simp [FSM.update_health, oDeg, fsm0, FSM.init]

/-- C7 witness: a fusion-sourced OK observation updates both timestamps to
the current time. -/
theorem health_updates_from_ok_observation_witness :
    (FSM.step 100 (some oOk) fsm0).sensor.lastVision = 100 ∧
    (FSM.step 100 (some oOk) fsm0).sensor.lastAudio = 100 := by
  obtain ⟨-, -, h3⟩ := health_updates_from_ok_observation fsm0 100 oOk rfl
  exact h3 (Or.inl rfl)

lemma status_all_ok_of (h : SensorHealth) (now : ℚ)
    (hv : now - h.lastVision < h.timeout) (ha : now - h.lastAudio < h.timeout) :
    h.status now = "ALL_OK" := by
  unfold SensorHealth.status
  rw [if_pos ⟨by simpa [SensorHealth.vision_ok], by simpa [SensorHealth.audio_ok]⟩]

lemma all_ok_bounds (h : SensorHealth) (now : ℚ) (hst : h.status now = "ALL_OK") :
    now - h.lastVision < h.timeout ∧ now - h.lastAudio < h.timeout := by
  unfold SensorHealth.status at hst
  split_ifs at hst with h1 h2 h3
  · exact ⟨by simpa [SensorHealth.vision_ok] using h1.1,
      by simpa [SensorHealth.audio_ok] using h1.2⟩
  · simp at hst
  · simp at hst
  · simp at hst

/-- With healthy sensors and a monotone clock, the health-update prologue
keeps health at ALL_OK (it can only refresh timestamps). -/
lemma update_health_all_ok (now : ℚ) (obs : Option FsmObs) (s : FSMState)
    (hok : s.sensor.status now = "ALL_OK")
    (hv : s.sensor.lastVision ≤ now) :
    (FSM.update_health now obs s).sensor.status now = "ALL_OK" := by
  obtain ⟨bv, ba⟩ := all_ok_bounds _ _ hok
  have ht : 0 < s.sensor.timeout := by linarith
  cases obs with
  | none => simpa [FSM.update_health] using hok
  | some o =>
    simp only [FSM.update_health]
    split_ifs <;>
      first
        | simpa using hok
        | (apply status_all_ok_of <;>
            (simp only [SensorHealth.update_vision, SensorHealth.update_audio]; linarith))

/-- From SCAN, the engage block with a vision contributor at or above the
lock confidence promotes to LOCKED and then immediately to TRACK, within the
same call. -/
lemma mv_engage_scan_to_track (now : ℚ) (o : FsmObs) (s : FSMState)
    (hS : s.state = FSM.SCAN) (hvis : "vision" ∈ o.sources)
    (hconf : s.cfg.lock_conf ≤ o.confidence.getD 0) :
    (FSM.mv_engage now o s).state = FSM.TRACK := by
  simp only [FSM.mv_engage]
  split_ifs <;> simp_all [hS, FSM.SCAN, FSM.LOCKED, FSM.TRACK]

/-- C8 (amended): from SCAN, a valid observation whose contributing sources
include vision with confidence at or above lock_conf transitions to LOCKED
and — because the LOCKED to TRACK check runs immediately afterwards in the
same step and the confidence bound still holds — on to TRACK within that same
step call; the promotion does not wait for a later step. -/
theorem scan_locks_and_tracks_same_step (s : FSMState) (now : ℚ) (o : FsmObs)
    (hS : s.state = FSM.SCAN) (hok : s.sensor.status now = "ALL_OK")
    (hv : s.sensor.lastVision ≤ now)
    (hst : o.status = "OK") (hb : o.bearing_deg.isSome)
    (hvis : "vision" ∈ o.sources) (hconf : s.cfg.lock_conf ≤ o.confidence.getD 0) :
    (FSM.step now (some o) s).state = FSM.TRACK := by
  have hsen := update_health_all_ok now (some o) s hok hv
  have hdact : FSM._check_degradation now (FSM.update_health now (some o) s) = none := by
    rw [FSM._check_degradation, hsen]
    simp
  have hst1 : (FSM.update_health now (some o) s).state = FSM.SCAN := by simpa using hS
  have hstep : FSM.step now (some o) s =
      FSM.main_valid now o (FSM.update_health now (some o) s) := by
    simp [FSM.step, FSM.truthyStr, hdact, FSM.step_rest, hst1, hS, FSM.SCAN, FSM.DEGRADED,
      hst, hb]
  rw [hstep]
  simp only [FSM.main_valid]
  have hadv : FSM.mv_advance now
      { (FSM.update_health now (some o) s) with last_seen := now } =
      { (FSM.update_health now (some o) s) with last_seen := now } := by
    simp [FSM.mv_advance, hst1, hS, FSM.IDLE, FSM.SEARCH, FSM.SCAN]
  rw [hadv]
  split_ifs with hcond
  · exact mv_engage_scan_to_track now o _ hst1 hvis (by simpa using hconf)
  · exact absurd (Or.inl hst1) hcond

/-- Fused OK observation with vision and audio contributors at confidence
0.8, above the default lock threshold 0.6. -/
def oLock : FsmObs :=
  { status := "OK", source := "fusion", sources := ["vision", "audio"],
    bearing_deg := some 45, confidence := some (4/5) }

/-- C8 witness: the amended statement at a concrete SCAN state. -/
theorem scan_locks_and_tracks_same_step_witness :
    (FSM.step 100 (some oLock) sScan).state = FSM.TRACK :=
  scan_locks_and_tracks_same_step sScan 100 oLock rfl
    (by norm_num [sScan, SensorHealth.status, SensorHealth.vision_ok, SensorHealth.audio_ok])
    (by norm_num [sScan])
    rfl rfl (by simp [oLock]) (by norm_num [sScan, oLock])

/-- C8 counterexample: one single step from SCAN with a confident vision
observation ends in TRACK, not LOCKED — the LOCKED to TRACK promotion does
not wait for a later step. -/
theorem scan_to_track_in_one_step_cex :
    sScan.state = FSM.SCAN ∧
    (FSM.step 100 (some oLock) sScan).state = FSM.TRACK ∧
    FSM.TRACK ≠ FSM.LOCKED := by
  refine ⟨rfl, ?_, by simp [FSM.TRACK, FSM.LOCKED]⟩
  have hS : sScan.state = FSM.SCAN := rfl
  have hok : sScan.sensor.status 100 = "ALL_OK" := by
    norm_num [sScan, SensorHealth.status, SensorHealth.vision_ok, SensorHealth.audio_ok]
  have hsen := update_health_all_ok 100 (some oLock) sScan hok (by norm_num [sScan])
  have hdact : FSM._check_degradation 100 (FSM.update_health 100 (some oLock) sScan)
      = none := by
    rw [FSM._check_degradation, hsen]
    simp
  have hst1 : (FSM.update_health 100 (some oLock) sScan).state = FSM.SCAN := by simpa using hS
  have hstep : FSM.step 100 (some oLock) sScan =
      FSM.main_valid 100 oLock (FSM.update_health 100 (some oLock) sScan) := by
    simp [FSM.step, FSM.truthyStr, hdact, FSM.step_rest, hst1, hS, FSM.SCAN, FSM.DEGRADED,
      show oLock.status = "OK" from rfl, show oLock.bearing_deg.isSome from rfl]
  rw [hstep]
  simp only [FSM.main_valid]
  have hadv : FSM.mv_advance 100
      { (FSM.update_health 100 (some oLock) sScan) with last_seen := 100 } =
      { (FSM.update_health 100 (some oLock) sScan) with last_seen := 100 } := by
    simp [FSM.mv_advance, hst1, hS, FSM.IDLE, FSM.SEARCH, FSM.SCAN]
  rw [hadv]
  split_ifs with hcond
  · exact mv_engage_scan_to_track 100 oLock _ hst1 (by simp [oLock])
      (by norm_num [sScan, oLock])
  · exact absurd (Or.inl hst1) hcond

end Fly
